import Mathlib

/-!
Verification development for the MIES NWB reader (`neuroanalysis/miesnwb.py`).

The source decodes a MIES "lab notebook": a 3-axis numeric float table
(records × fields × 9 columns), merges the records per sweep with NaN-aware
precedence, broadcasts global columns, and assembles per-channel recordings
with clamp-mode-dependent unit scaling, DA-channel pairing and test-pulse
window derivation.

Float cells are embedded as `FV`: `nan` for NaN, `inf` for the infinities
(sign not needed by any decoder branch modelled here), `fin q` for a finite
value as a rational.  `isnan` models `np.isnan`, `isfinite` models
`np.isfinite`.
-/

inductive FV where
  | nan : FV
  | inf : FV
  | fin : ℚ → FV
deriving DecidableEq, Repr

def FV.isnan : FV → Bool
  | .nan => true
  | _ => false

def FV.isfinite : FV → Bool
  | .fin _ => true
  | _ => false

/-- Multiplication of a float cell by a positive rational constant
(`x * 1e-3` etc.; every scale used in the source is positive, so the sign
of an infinity never flips and is not tracked). -/
def FV.scale : FV → ℚ → FV
  | .nan, _ => .nan
  | .inf, _ => .inf
  | .fin q, s => .fin (q * s)

/-- Python `int()` on a float: truncation toward zero. -/
def ratTrunc (q : ℚ) : ℤ := if 0 ≤ q then ⌊q⌋ else ⌈q⌉

/-- Rounding to the nearest integer (ties upward); used only to state the
spec's `round`-based formula, which the source does not implement. -/
def ratRound (q : ℚ) : ℤ := ⌊q + 1/2⌋

/-- One raw notebook record (and likewise one merged per-sweep entry):
field index → column index (columns 0–7 are hardware channels, column 8 is
the "global" column).  Field indices are unbounded naturals; the table's
field count only matters where the source iterates over `nb_keys`. -/
def Entry : Type := ℕ → Fin 9 → FV

/-- `nb_entries[sweep] = np.array(rec)` / `nb_entries[sweep][mask] = rec[mask]`
with `mask = ~np.isnan(rec)`, cell by cell: a non-NaN new value overwrites,
a NaN new value keeps the old cell. -/
def mergeCell (old new : FV) : FV := if new.isnan then old else new

def mergeRec (old new : Entry) : Entry := fun f c => mergeCell (old f c) (new f c)

/-- Ordered-dict lookup (first, and only, occurrence of the key). -/
def lookupEntry (s : ℤ) : List (ℤ × Entry) → Option Entry
  | [] => none
  | (s', e) :: rest => if s' = s then some e else lookupEntry s rest

/-- Ordered-dict update: merge into an existing key's entry in place, or
append a brand-new key at the end seeded with the record verbatim. -/
def updEntry : List (ℤ × Entry) → ℤ → Entry → List (ℤ × Entry)
  | [], s, r => [(s, r)]
  | (s', e) :: rest, s, r =>
    if s' = s then (s', mergeRec e r) :: rest else (s', e) :: updEntry rest s r

/-- `np.isnan(rec[0,0])`: the record's sweep-number cell is NaN. -/
def sweepNan (r : Entry) : Bool := (r 0 0).isnan

/-- `int(rec[0,0])` for a record that passed the NaN check.  (A non-finite
sweep number would raise in `int()`; only the NaN case is guarded by the
source, and non-finite sweep cells are not modelled further.) -/
def sweepOf (r : Entry) : ℤ :=
  match r 0 0 with
  | .fin q => ratTrunc q
  | _ => 0

/-- The EntrySourceType test: `some true` = skip the record (source type
present, non-NaN and non-zero), `some false` = keep it (present, non-NaN,
zero), `none` = fall through to the two-record heuristic (field absent, or
its value NaN). -/
def estKind (est : Option ℕ) (r : Entry) : Option Bool :=
  match est with
  | none => none
  | some e =>
    if (r e 0).isnan then none
    else if r e 0 = FV.fin 0 then some false else some true

/-- `any(np.isfinite(rec[fieldIdx]))` over the record's 9 columns. -/
def rowAnyFinite (r : Entry) (fieldIdx : ℕ) : Bool :=
  (List.finRange 9).any (fun c => (r fieldIdx c).isfinite)

/-- The record-collection loop of `MiesNwb.notebook` (lines 44–74): skip
NaN-sweep records, skip test-pulse records by EntrySourceType when usable,
otherwise apply the two-record TP heuristic when a next record exists
(skipping both records of a detected block), and merge every surviving
record into the ordered per-sweep accumulator. -/
def collectEntries (est : Option ℕ) (tpP tpD : ℕ)
    (acc : List (ℤ × Entry)) : List Entry → List (ℤ × Entry)
  | [] => acc
  | r :: rest =>
    if sweepNan r then collectEntries est tpP tpD acc rest
    else
      match estKind est r with
      | some true => collectEntries est tpP tpD acc rest
      | some false => collectEntries est tpP tpD (updEntry acc (sweepOf r) r) rest
      | none =>
        match rest with
        | [] => updEntry acc (sweepOf r) r
        | r2 :: rest2 =>
          if rowAnyFinite r tpP && rowAnyFinite r2 tpD then
            collectEntries est tpP tpD acc rest2
          else
            collectEntries est tpP tpD (updEntry acc (sweepOf r) r) (r2 :: rest2)

/-- The records the loop actually merges ("qualifying" records), tagged with
their integer sweep id, in processing order: same branch structure as
`collectEntries`, without the accumulator. -/
def surviving (est : Option ℕ) (tpP tpD : ℕ) : List Entry → List (ℤ × Entry)
  | [] => []
  | r :: rest =>
    if sweepNan r then surviving est tpP tpD rest
    else
      match estKind est r with
      | some true => surviving est tpP tpD rest
      | some false => (sweepOf r, r) :: surviving est tpP tpD rest
      | none =>
        match rest with
        | [] => [(sweepOf r, r)]
        | r2 :: rest2 =>
          if rowAnyFinite r tpP && rowAnyFinite r2 tpD then
            surviving est tpP tpD rest2
          else
            (sweepOf r, r) :: surviving est tpP tpD (r2 :: rest2)

/-- The qualifying records of one sweep, in processing order. -/
def qualEntries (est : Option ℕ) (tpP tpD : ℕ) (recs : List Entry) (s : ℤ) :
    List Entry :=
  (surviving est tpP tpD recs).filterMap
    (fun p => if p.1 = s then some p.2 else none)

/-- Column-8 ("global") propagation (line 78–79): wherever the global column
holds a non-NaN value, every column of that field row receives it. -/
def globalize (e : Entry) : Entry :=
  fun f c => if (e f 8).isnan then e f c else e f 8

/-- Lines 81–82: the first four field rows are overwritten with column 0's
(already globalized) values on every column. -/
def firstFour (e : Entry) : Entry :=
  fun f c => if f < 4 then e f 0 else e f c

/-- `k.startswith('Async AD ')` for the field name at index `f` of the key
list (fields past the end of the key list are not visited by the loop). -/
def isAsync (keys : List String) (f : ℕ) : Bool :=
  match keys.get? f with
  | some k => "Async AD ".data.isPrefixOf k.data
  | none => false

/-- Lines 84–90: every "Async AD "-prefixed field row is overwritten with
column 0's value on every column. -/
def asyncBroadcast (keys : List String) (e : Entry) : Entry :=
  fun f c => if isAsync keys f then e f 0 else e f c

/-- The per-entry post-processing of `MiesNwb.notebook` (lines 76–90), in
source order: global column, then first four fields, then async fields. -/
def postProcess (keys : List String) (e : Entry) : Entry :=
  asyncBroadcast keys (firstFour (globalize e))

/-- The decoded notebook: collect and merge the qualifying records, then
post-process every sweep's entry.  (The final list-of-dicts conversion maps
NaN cells to `None` and is modelled where the per-channel mappings are
consumed.) -/
def decodeNotebook (keys : List String) (est : Option ℕ) (tpP tpD : ℕ)
    (recs : List Entry) : List (ℤ × Entry) :=
  (collectEntries est tpP tpD [] recs).map (fun p => (p.1, postProcess keys p.2))

/-- Merging a record into an optional accumulated entry: the first record
seeds the entry verbatim, later ones merge cell-wise. -/
def mergeInto (o : Option Entry) (r : Entry) : Option Entry :=
  match o with
  | some e => some (mergeRec e r)
  | none => some r

/-- The claim's description of one cell after the merge: the last non-NaN
value among the qualifying records' cells, or NaN when there is none. -/
def lastNonNaN (cells : List FV) : FV :=
  match (cells.filter (fun v => !v.isnan)).getLast? with
  | some v => v
  | none => FV.nan

theorem collectEntries_eq_foldl (est : Option ℕ) (tpP tpD : ℕ)
    (acc : List (ℤ × Entry)) (recs : List Entry) :
    collectEntries est tpP tpD acc recs =
      (surviving est tpP tpD recs).foldl (fun a p => updEntry a p.1 p.2) acc := by
  induction acc, recs using collectEntries.induct est tpP tpD with
  | case1 acc => simp [collectEntries, surviving]
  | case2 acc r rest h ih => cases rest <;> simp [collectEntries, surviving, h, ih]
  | case3 acc r rest h h2 ih => cases rest <;> simp [collectEntries, surviving, h, h2, ih]
  | case4 acc r rest h h2 ih => cases rest <;> simp [collectEntries, surviving, h, h2, ih]
  | case5 acc r h h2 => simp [collectEntries, surviving, h, h2]
  | case6 acc r h h2 r2 rest2 h3 ih => simp [collectEntries, surviving, h, h2, h3, ih]
  | case7 acc r h h2 r2 rest2 h3 ih => simp [collectEntries, surviving, h, h2, h3, ih]

theorem lookup_updEntry (acc : List (ℤ × Entry)) (s' : ℤ) (r : Entry) (s : ℤ) :
    lookupEntry s (updEntry acc s' r) =
      if s' = s then mergeInto (lookupEntry s acc) r else lookupEntry s acc := by
  induction acc with
  | nil =>
    by_cases h : s' = s <;> simp [updEntry, lookupEntry, mergeInto, h]
  | cons p rest ih =>
    obtain ⟨a, e⟩ := p
    by_cases h1 : a = s'
    · subst h1
      by_cases h2 : a = s <;> simp [updEntry, lookupEntry, mergeInto, h2]
    · by_cases h2 : a = s
      · subst h2
        have h3 : ¬ s' = a := fun hc => h1 hc.symm
        simp [updEntry, lookupEntry, mergeInto, h1, h3]
      · simp [updEntry, lookupEntry, h1, h2, ih]

theorem lookup_foldl (s : ℤ) (pairs : List (ℤ × Entry)) :
    ∀ acc : List (ℤ × Entry),
      lookupEntry s (pairs.foldl (fun a p => updEntry a p.1 p.2) acc) =
        (pairs.filterMap (fun p => if p.1 = s then some p.2 else none)).foldl
          mergeInto (lookupEntry s acc) := by
  induction pairs with
  | nil => intro acc; simp
  | cons p ps ih =>
    intro acc
    obtain ⟨a, r⟩ := p
    by_cases h : a = s <;>
      simp [List.foldl_cons, ih, lookup_updEntry, h]

theorem foldl_mergeInto_some (rs : List Entry) :
    ∀ e : Entry, rs.foldl mergeInto (some e) = some (rs.foldl mergeRec e) := by
  induction rs with
  | nil => intro e; simp
  | cons r rs ih => intro e; simp [List.foldl_cons, mergeInto, ih]

theorem foldl_mergeRec_cell (rs : List Entry) :
    ∀ (e : Entry) (f : ℕ) (c : Fin 9),
      (rs.foldl mergeRec e) f c =
        (rs.map (fun r => r f c)).foldl mergeCell (e f c) := by
  induction rs with
  | nil => intro e f c; simp
  | cons r rs ih => intro e f c; simp [List.foldl_cons, ih, mergeRec]

theorem isnan_eq_true_iff (v : FV) : v.isnan = true ↔ v = FV.nan := by
  cases v <;> simp [FV.isnan]

theorem foldl_mergeCell_lastNonNaN (l : List FV) :
    ∀ a : FV, l.foldl mergeCell a = lastNonNaN (a :: l) := by
  induction l with
  | nil =>
    intro a
    cases a <;> simp [lastNonNaN, FV.isnan]
  | cons v l ih =>
    intro a
    rw [List.foldl_cons, ih]
    cases hv : v.isnan with
    | true =>
      have hveq : v = FV.nan := (isnan_eq_true_iff v).mp hv
      subst hveq
      simp [lastNonNaN, mergeCell, FV.isnan, List.filter_cons]
    | false =>
      have hm : mergeCell a v = v := by simp [mergeCell, hv]
      rw [hm]
      cases ha : a.isnan with
      | true =>
        have haeq : a = FV.nan := (isnan_eq_true_iff a).mp ha
        subst haeq
        simp [lastNonNaN, FV.isnan, List.filter_cons, hv]
      | false =>
        simp only [lastNonNaN, List.filter_cons, hv, ha, Bool.not_false, if_pos]
        rw [List.getLast?_cons_cons]

theorem lookup_map_postProcess (keys : List String) (s : ℤ)
    (l : List (ℤ × Entry)) :
    lookupEntry s (l.map (fun p => (p.1, postProcess keys p.2))) =
      (lookupEntry s l).map (postProcess keys) := by
  induction l with
  | nil => rfl
  | cons p rest ih =>
    obtain ⟨a, e⟩ := p
    by_cases h : a = s <;> simp [lookupEntry, h, ih]

/-- Claim C1: after the record-collection loop, each cell of the merged
per-sweep entry holds the last non-NaN value among the qualifying records'
cells for that sweep (the first qualifying record seeds the entry verbatim,
later non-NaN values overwrite, NaN never replaces a recorded value), and a
sweep with no qualifying record has no entry. -/
theorem c1_nan_merge (est : Option ℕ) (tpP tpD : ℕ) (recs : List Entry)
    (s : ℤ) (f : ℕ) (c : Fin 9) :
    (lookupEntry s (collectEntries est tpP tpD [] recs)).map (fun e => e f c) =
      match qualEntries est tpP tpD recs s with
      | [] => none
      | r :: rs => some (lastNonNaN ((r :: rs).map (fun q => q f c))) := by
  rw [collectEntries_eq_foldl, lookup_foldl]
  have hq : (surviving est tpP tpD recs).filterMap
      (fun p => if p.1 = s then some p.2 else none) =
      qualEntries est tpP tpD recs s := rfl
  rw [hq]
  cases qualEntries est tpP tpD recs s with
  | nil => rfl
  | cons r rs =>
    rw [List.foldl_cons]
    have h0 : mergeInto (lookupEntry s []) r = some r := rfl
    rw [h0, foldl_mergeInto_some]
    rw [Option.map_some', foldl_mergeRec_cell, foldl_mergeCell_lastNonNaN]
    rfl

/-- Claim C2: (a) a record whose sweep cell is set and whose EntrySourceType
cell is present and non-NaN is merged exactly when that value is zero and
skipped exactly when it is non-zero; (b) with no EntrySourceType field, a
sweep-associated record with a finite "TP Peak Resistance" cell immediately
followed by a record with a finite "TP Pulse Duration" cell is discarded
together with that next record, contributing nothing to the decoded
notebook. -/
theorem c2_test_pulse_skip (keys : List String) (e tpP tpD : ℕ) (r : Entry)
    (rest : List Entry) (r1 r2 : Entry) (rest2 : List Entry)
    (h1 : sweepNan r = false) (h2 : (r e 0).isnan = false)
    (h3 : sweepNan r1 = false)
    (h4 : rowAnyFinite r1 tpP = true) (h5 : rowAnyFinite r2 tpD = true) :
    surviving (some e) tpP tpD (r :: rest) =
      (if r e 0 = FV.fin 0 then [(sweepOf r, r)] else []) ++
        surviving (some e) tpP tpD rest
    ∧ decodeNotebook keys none tpP tpD (r1 :: r2 :: rest2) =
        decodeNotebook keys none tpP tpD rest2 := by
  constructor
  · have hk : estKind (some e) r =
        (if r e 0 = FV.fin 0 then some false else some true) := by
      simp [estKind, h2]
    by_cases hz : r e 0 = FV.fin 0
    · rw [if_pos hz] at hk
      cases rest <;> simp [surviving, h1, hk, hz]
    · rw [if_neg hz] at hk
      cases rest <;> simp [surviving, h1, hk, hz]
  · simp [decodeNotebook, collectEntries, estKind, h3, h4, h5]

def wRec1 : Entry := fun f c =>
  if f = 0 ∧ c = 0 then FV.fin 2
  else if f = 5 ∧ c = 0 then FV.fin 1 else FV.nan

def wRec2 : Entry := fun f c =>
  if f = 0 ∧ c = 0 then FV.fin 3
  else if f = 7 then FV.fin 4 else FV.nan

def wRec3 : Entry := fun f c =>
  if f = 0 ∧ c = 0 then FV.fin 3
  else if f = 9 then FV.fin 6 else FV.nan

theorem c2_test_pulse_skip_witness :
    sweepNan wRec1 = false ∧ (wRec1 5 0).isnan = false ∧
    sweepNan wRec2 = false ∧ rowAnyFinite wRec2 7 = true ∧
    rowAnyFinite wRec3 9 = true ∧
    (surviving (some 5) 7 9 [wRec1] =
        (if wRec1 5 0 = FV.fin 0 then [(sweepOf wRec1, wRec1)] else []) ++
          surviving (some 5) 7 9 []
      ∧ decodeNotebook [] none 7 9 [wRec2, wRec3] =
          decodeNotebook [] none 7 9 []) :=
  ⟨by decide, by decide, by decide, by decide, by decide,
    c2_test_pulse_skip [] 5 7 9 wRec1 [] wRec2 wRec3 []
      (by decide) (by decide) (by decide) (by decide) (by decide)⟩

/-- Claim C4: when the merged entry's global column (column 8) of a field is
non-NaN, the decoded entry holds that global value for the field in every
column, whatever the per-channel columns contained. -/
theorem c4_global_column (keys : List String) (est : Option ℕ) (tpP tpD : ℕ)
    (recs : List Entry) (s : ℤ) (e : Entry) (f : ℕ) (c : Fin 9)
    (h1 : lookupEntry s (collectEntries est tpP tpD [] recs) = some e)
    (h2 : (e f 8).isnan = false) :
    lookupEntry s (decodeNotebook keys est tpP tpD recs) =
      some (postProcess keys e)
    ∧ postProcess keys e f c = e f 8 := by
  have hg : ∀ c' : Fin 9, globalize e f c' = e f 8 := by
    intro c'
    simp [globalize, h2]
  have hff : ∀ c' : Fin 9, firstFour (globalize e) f c' = e f 8 := by
    intro c'
    by_cases hf : f < 4 <;> simp [firstFour, hf, hg]
  constructor
  · rw [decodeNotebook, lookup_map_postProcess, h1, Option.map_some']
  · by_cases ha : isAsync keys f = true <;>
      simp [postProcess, asyncBroadcast, ha, hff]

def wKeys : List String :=
  ["SweepNum", "TimeStamp", "TimeStampSinceIgorEpoch", "EntrySourceType",
   "Clamp Mode", "Async AD 1: Temperature", "TP Insert Checkbox"]

def wRec4 : Entry := fun f c =>
  if f = 0 ∧ c = 0 then FV.fin 1
  else if f = 6 ∧ c = 8 then FV.fin 9
  else if f = 6 ∧ c = 2 then FV.fin 5
  else if f = 5 ∧ c = 0 then FV.fin 21 else FV.nan

theorem c4_global_column_witness :
    lookupEntry 1 (collectEntries none 20 21 [] [wRec4]) = some wRec4 ∧
    (wRec4 6 8).isnan = false ∧
    (lookupEntry 1 (decodeNotebook wKeys none 20 21 [wRec4]) =
        some (postProcess wKeys wRec4)
      ∧ postProcess wKeys wRec4 6 2 = wRec4 6 8) :=
  ⟨rfl, by decide,
    c4_global_column wKeys none 20 21 [wRec4] 1 wRec4 6 2 rfl (by decide)⟩

/-- Claim C6: in every decoded notebook entry, each of the first four fields
has the same value in every column as in column 0, and so does every field
whose name starts with the broadcast prefix "Async AD ". -/
theorem c6_broadcast_fields (keys : List String) (est : Option ℕ)
    (tpP tpD : ℕ) (recs : List Entry) (s : ℤ) (e : Entry) (f : ℕ) (c : Fin 9)
    (h1 : lookupEntry s (decodeNotebook keys est tpP tpD recs) = some e)
    (h2 : f < 4 ∨ isAsync keys f = true) :
    e f c = e f 0 := by
  rw [decodeNotebook, lookup_map_postProcess] at h1
  cases hL : lookupEntry s (collectEntries est tpP tpD [] recs) with
  | none => rw [hL] at h1; simp at h1
  | some e0 =>
    rw [hL, Option.map_some'] at h1
    have he : e = postProcess keys e0 := by
      exact (Option.some.injEq _ _ ▸ h1 : postProcess keys e0 = e).symm
    subst he
    rcases h2 with hf | ha
    · by_cases hasync : isAsync keys f = true
      · simp [postProcess, asyncBroadcast, hasync]
      · simp [postProcess, asyncBroadcast, hasync, firstFour, hf]
    · simp [postProcess, asyncBroadcast, ha]

theorem c6_broadcast_fields_witness :
    lookupEntry 1 (decodeNotebook wKeys none 20 21 [wRec4]) =
      some (postProcess wKeys wRec4) ∧
    (5 < 4 ∨ isAsync wKeys 5 = true) ∧
    postProcess wKeys wRec4 5 3 = postProcess wKeys wRec4 5 0 :=
  ⟨rfl, Or.inr (by decide),
    c6_broadcast_fields wKeys none 20 21 [wRec4] 1 (postProcess wKeys wRec4)
      5 3 rfl (Or.inr (by decide))⟩

/-- The per-channel metadata mapping one decoded column yields: field name to
value, where a NaN cell became Python `None` (`none` here); `some .inf`
covers an infinite stored value. -/
def NbMap : Type := String → Option FV

/-- `MiesRecording.clamp_mode` (lines 268–270): `'vc'` exactly when the
entry's "Clamp Mode" equals 0; a missing (`None`) or any other value gives
`'ic'`. -/
def clamp_mode (clampModeVal : Option FV) : String :=
  if clampModeVal = some (FV.fin 0) then "vc" else "ic"

/-- `MiesTrace.data` (lines 221–232): the primary trace is the raw primary
array scaled by 1e-12 in voltage clamp and 1e-3 in current clamp; the
command trace is the raw command array scaled by 1e-3 in voltage clamp and
1e-12 in current clamp; any other channel id leaves the data unset. -/
def traceData (nb : NbMap) (chan : String) (primaryRaw commandRaw : List ℚ) :
    Option (List ℚ) :=
  if chan = "primary" then
    some (primaryRaw.map (fun v =>
      v * (if clamp_mode (nb "Clamp Mode") = "vc" then 1/10^12 else 1/10^3)))
  else if chan = "command" then
    some (commandRaw.map (fun v =>
      v * (if clamp_mode (nb "Clamp Mode") = "vc" then 1/10^3 else 1/10^12)))
  else none

/-- Claim C3: the clamp mode is `'vc'` exactly when the decoded entry's
"Clamp Mode" equals 0 (`'ic'` otherwise), and every materialized primary
sample is the raw sample times 1e-12 in voltage clamp and 1e-3 in current
clamp, while every command sample gets the swapped factor. -/
theorem c3_clamp_scaling (nb : NbMap) (praw craw : List ℚ) :
    (clamp_mode (nb "Clamp Mode") = "vc" ↔ nb "Clamp Mode" = some (FV.fin 0))
    ∧ traceData nb "primary" praw craw =
        some (praw.map (fun v =>
          v * (if nb "Clamp Mode" = some (FV.fin 0) then (1:ℚ)/10^12
               else (1:ℚ)/10^3)))
    ∧ traceData nb "command" praw craw =
        some (craw.map (fun v =>
          v * (if nb "Clamp Mode" = some (FV.fin 0) then (1:ℚ)/10^3
               else (1:ℚ)/10^12))) := by
  by_cases h : nb "Clamp Mode" = some (FV.fin 0) <;>
    simp [clamp_mode, traceData, h]

/-- `MiesRecording.inserted_test_pulse` window computation (lines 291–305):
no pulse unless "TP Insert Checkbox" equals 1.0; otherwise
`pdur = duration/1000`, `bdur = pdur/(1 - 2*fraction)`,
`tdur = pdur + 2*bdur`, `start = 0`, `stop = start + int(tdur/dt)`.
A `None` operand raises `TypeError` in the source, a zero divisor raises
`ZeroDivisionError`, and a non-finite operand raises inside `int()`; all are
modelled as `error`. -/
def inserted_test_pulse_window (nb : NbMap) (dt : ℚ) :
    Except Unit (Option (ℤ × ℤ)) :=
  if nb "TP Insert Checkbox" ≠ some (FV.fin 1) then Except.ok none
  else
    match nb "TP Pulse Duration", nb "TP Baseline Fraction" with
    | some (FV.fin dms), some (FV.fin frac) =>
      let pdur := dms / 1000
      if 1 - 2 * frac = 0 then Except.error ()
      else
        let bdur := pdur / (1 - 2 * frac)
        let tdur := pdur + 2 * bdur
        if dt = 0 then Except.error ()
        else Except.ok (some (0, 0 + ratTrunc (tdur / dt)))
    | _, _ => Except.error ()

/-- Modelled from claim C5's wording: the identical derivation, but with the
stop index equal to `round(total_duration / sampling_interval)` instead of
the source's truncation. -/
def insertedTestPulseWindowSpec (nb : NbMap) (dt : ℚ) :
    Except Unit (Option (ℤ × ℤ)) :=
  if nb "TP Insert Checkbox" ≠ some (FV.fin 1) then Except.ok none
  else
    match nb "TP Pulse Duration", nb "TP Baseline Fraction" with
    | some (FV.fin dms), some (FV.fin frac) =>
      if 1 - 2 * frac = 0 ∨ dt = 0 then Except.error ()
      else
        Except.ok (some (0,
          ratRound ((dms / 1000 + 2 * (dms / 1000 / (1 - 2 * frac))) / dt)))
    | _, _ => Except.error ()

def wTPnb : NbMap := fun k =>
  if k = "TP Insert Checkbox" then some (FV.fin 1)
  else if k = "TP Pulse Duration" then some (FV.fin 1)
  else if k = "TP Baseline Fraction" then some (FV.fin (1/4))
  else none

/-- Counterexample to claim C5 as stated: with duration 1 ms, baseline
fraction 1/4 and sampling interval 0.0003 s, the total duration over the
interval is 50/3 ≈ 16.67, the source computes stop index `int(50/3) = 16`,
but the claim's `round` gives 17. -/
theorem c5_stop_index_counterexample :
    inserted_test_pulse_window wTPnb (3/10000) = Except.ok (some (0, 16)) ∧
    insertedTestPulseWindowSpec wTPnb (3/10000) = Except.ok (some (0, 17)) := by
  have e1 : wTPnb "TP Insert Checkbox" = some (FV.fin 1) := rfl
  have e2 : wTPnb "TP Pulse Duration" = some (FV.fin 1) := rfl
  have e3 : wTPnb "TP Baseline Fraction" = some (FV.fin (1/4)) := rfl
  constructor
  · simp only [inserted_test_pulse_window, e1, e2, e3]
    norm_num [ratTrunc]
  · simp only [insertedTestPulseWindowSpec, e1, e2, e3]
    norm_num [ratRound]

/-- Claim C5 as amended: when "TP Insert Checkbox" is not 1.0 there is no
pulse; when it is 1.0 (with finite parameters, a non-degenerate baseline
fraction and a non-zero sampling interval) the window is
`start = 0`, `stop = int((pdur + 2 * (pdur / (1 - 2*frac))) / dt)` with
`pdur = duration/1000` — truncation toward zero, not rounding. -/
theorem c5_window_amended (nb : NbMap) (dt dms frac : ℚ)
    (h1 : nb "TP Insert Checkbox" = some (FV.fin 1))
    (h2 : nb "TP Pulse Duration" = some (FV.fin dms))
    (h3 : nb "TP Baseline Fraction" = some (FV.fin frac))
    (h4 : 1 - 2 * frac ≠ 0) (h5 : dt ≠ 0) :
    inserted_test_pulse_window nb dt =
      Except.ok (some (0,
        ratTrunc ((dms / 1000 + 2 * (dms / 1000 / (1 - 2 * frac))) / dt)))
    ∧ ∀ nb' : NbMap, nb' "TP Insert Checkbox" ≠ some (FV.fin 1) →
        inserted_test_pulse_window nb' dt = Except.ok none := by
  constructor
  · simp [inserted_test_pulse_window, h1, h2, h3, h4, h5]
  · intro nb' h
    simp [inserted_test_pulse_window, h]

def wTPnb2 : NbMap := fun k =>
  if k = "TP Insert Checkbox" then some (FV.fin 1)
  else if k = "TP Pulse Duration" then some (FV.fin 20)
  else if k = "TP Baseline Fraction" then some (FV.fin (1/4))
  else none

theorem c5_window_amended_witness :
    wTPnb2 "TP Insert Checkbox" = some (FV.fin 1) ∧
    wTPnb2 "TP Pulse Duration" = some (FV.fin 20) ∧
    wTPnb2 "TP Baseline Fraction" = some (FV.fin (1/4)) ∧
    (1 - 2 * ((1:ℚ)/4) ≠ 0) ∧ ((1:ℚ)/10000 ≠ 0) ∧
    (inserted_test_pulse_window wTPnb2 (1/10000) =
        Except.ok (some (0,
          ratTrunc ((20 / 1000 + 2 * (20 / 1000 / (1 - 2 * (1/4)))) /
            (1/10000))))
      ∧ ∀ nb' : NbMap, nb' "TP Insert Checkbox" ≠ some (FV.fin 1) →
          inserted_test_pulse_window nb' (1/10000) = Except.ok none) :=
  ⟨rfl, rfl, rfl, by norm_num, by norm_num,
    c5_window_amended wTPnb2 (1/10000) 20 (1/4) rfl rfl rfl
      (by norm_num) (by norm_num)⟩

/-- The derived metadata `MiesRecording.__init__` stores (lines 252–263).
`bridge_balance` is only set in current clamp (`none` means "not set"). -/
structure MiesRecMeta where
  holding_potential : Option FV
  holding_current : Option FV
  clampModeStr : String
  bridge_balance : Option FV
  lpf_cutoff : Option FV
  pipette_offset : FV
deriving DecidableEq, Repr

/-- The metadata assembly of `MiesRecording.__init__` (lines 252–263): the
holding levels are guarded (`None if nb[...] is None else nb[...] * scale`),
but an enabled bridge-balance value and the pipette offset are multiplied
unguarded — a `None` there raises `TypeError` and construction fails
(modelled as `error`). -/
def buildRecMeta (nb : NbMap) : Except Unit MiesRecMeta :=
  let hp := (nb "V-Clamp Holding Level").map (fun v => v.scale (1/1000))
  let hc := (nb "I-Clamp Holding Level").map (fun v => v.scale (1/10^12))
  let modeBridge : Except Unit (String × Option FV) :=
    if nb "Clamp Mode" = some (FV.fin 0) then Except.ok ("vc", none)
    else if nb "Bridge Bal Enable" = some (FV.fin 0) then
      Except.ok ("ic", some (FV.fin 0))
    else
      match nb "Bridge Bal Value" with
      | some v => Except.ok ("ic", some (v.scale (10^6)))
      | none => Except.error ()
  match modeBridge with
  | Except.error e => Except.error e
  | Except.ok mb =>
    match nb "Pipette Offset" with
    | none => Except.error ()
    | some po =>
      Except.ok ⟨hp, hc, mb.1, mb.2, nb "LPF Cutoff", po.scale (1/1000)⟩

/-- The per-sweep recording loop of `MiesSyncRecording.__init__` (lines
366–371): one recording per A/D channel, in order; an exception from any
construction propagates and aborts the whole sweep build. -/
def buildSweepRecs : List NbMap → Except Unit (List MiesRecMeta)
  | [] => Except.ok []
  | nb :: rest =>
    match buildRecMeta nb with
    | Except.error e => Except.error e
    | Except.ok m =>
      match buildSweepRecs rest with
      | Except.error e => Except.error e
      | Except.ok ms => Except.ok (m :: ms)

/-- Claim C10: a recording whose entry lacks "Pipette Offset" fails to
construct (`None * 1e-3` raises), and that failure aborts the whole sweep
build; missing "V-Clamp Holding Level" / "I-Clamp Holding Level" values are
tolerated and stored as null metadata. -/
theorem buildRecMeta_ok_holding (nb : NbMap) (m : MiesRecMeta)
    (h : buildRecMeta nb = Except.ok m) :
    m.holding_potential =
        (nb "V-Clamp Holding Level").map (fun v => v.scale (1/1000)) ∧
      m.holding_current =
        (nb "I-Clamp Holding Level").map (fun v => v.scale (1/10^12)) := by
  unfold buildRecMeta at h
  repeat' split at h
  all_goals
    first
      | (rw [Except.ok.injEq] at h
         subst h
         exact ⟨rfl, rfl⟩)
      | (cases h)

/-- Claim C10: a recording whose entry lacks "Pipette Offset" fails to
construct (`None * 1e-3` raises), and that failure aborts the whole sweep
build; missing "V-Clamp Holding Level" / "I-Clamp Holding Level" values are
tolerated and stored as null metadata. -/
theorem c10_pipette_offset_required (nbs : List NbMap) (nb1 nb2 : NbMap)
    (m : MiesRecMeta)
    (h1 : nb1 "Pipette Offset" = none)
    (h2 : nb1 ∈ nbs)
    (h3 : buildRecMeta nb2 = Except.ok m)
    (h4 : nb2 "V-Clamp Holding Level" = none)
    (h5 : nb2 "I-Clamp Holding Level" = none) :
    buildRecMeta nb1 = Except.error () ∧
    buildSweepRecs nbs = Except.error () ∧
    m.holding_potential = none ∧ m.holding_current = none := by
  have ha : buildRecMeta nb1 = Except.error () := by
    unfold buildRecMeta
    rw [h1]
    split
    · rfl
    · split
      · rfl
      · split <;> rfl
  have hold := buildRecMeta_ok_holding nb2 m h3
  refine ⟨ha, ?_, ?_, ?_⟩
  · induction h2 with
    | head rest => simp [buildSweepRecs, ha]
    | tail b hmem ih =>
      rename_i as
      cases hm : buildRecMeta b with
      | error e => cases e; simp [buildSweepRecs, hm]
      | ok mB => simp [buildSweepRecs, hm, ih]
  · rw [hold.1, h4]
    rfl
  · rw [hold.2, h5]
    rfl

def wNbBad : NbMap := fun k =>
  if k = "Clamp Mode" then some (FV.fin 0) else none

def wNbGood : NbMap := fun k =>
  if k = "Clamp Mode" then some (FV.fin 0)
  else if k = "Pipette Offset" then some (FV.fin 1000) else none

theorem c10_pipette_offset_required_witness :
    wNbBad "Pipette Offset" = none ∧ wNbBad ∈ [wNbBad, wNbGood] ∧
    buildRecMeta wNbGood =
      Except.ok ⟨none, none, "vc", none, none, FV.fin 1⟩ ∧
    wNbGood "V-Clamp Holding Level" = none ∧
    wNbGood "I-Clamp Holding Level" = none ∧
    (buildRecMeta wNbBad = Except.error () ∧
      buildSweepRecs [wNbBad, wNbGood] = Except.error () ∧
      (⟨none, none, "vc", none, none, FV.fin 1⟩ : MiesRecMeta).holding_potential
        = none ∧
      (⟨none, none, "vc", none, none, FV.fin 1⟩ : MiesRecMeta).holding_current
        = none) :=
  ⟨rfl, List.Mem.head _,
    by
      have e1 : wNbGood "Clamp Mode" = some (FV.fin 0) := rfl
      have e2 : wNbGood "Pipette Offset" = some (FV.fin 1000) := rfl
      have e3 : wNbGood "V-Clamp Holding Level" = none := rfl
      have e4 : wNbGood "I-Clamp Holding Level" = none := rfl
      have e5 : wNbGood "LPF Cutoff" = none := rfl
      simp only [buildRecMeta, e1, e2, e3, e4, e5, Option.map_none']
      norm_num [FV.scale],
    rfl, rfl,
    c10_pipette_offset_required [wNbBad, wNbGood] wNbBad wNbGood
      ⟨none, none, "vc", none, none, FV.fin 1⟩ rfl (List.Mem.head _)
      (by
        have e1 : wNbGood "Clamp Mode" = some (FV.fin 0) := rfl
        have e2 : wNbGood "Pipette Offset" = some (FV.fin 1000) := rfl
        have e3 : wNbGood "V-Clamp Holding Level" = none := rfl
        have e4 : wNbGood "I-Clamp Holding Level" = none := rfl
        have e5 : wNbGood "LPF Cutoff" = none := rfl
        simp only [buildRecMeta, e1, e2, e3, e4, e5, Option.map_none']
        norm_num [FV.scale]) rfl rfl⟩

/-- `'electrode_%d' % device_id`. -/
def electrodeName (deviceId : ℤ) : String := "electrode_" ++ toString deviceId

/-- `MiesRecording.da_chan` (lines 323–335): walk every stimulus-output
group of the sweep in enumeration order, remembering the channel id of each
group whose `electrode_name` matches the device; the source raises when none
matched (`none` here).  `stims` pairs each group's DA channel id with its
recorded electrode name. -/
def da_chan (stims : List (ℤ × String)) (deviceId : ℤ) : Option ℤ :=
  stims.foldl
    (fun found g => if g.2 = electrodeName deviceId then some g.1 else found)
    none

/-- Command-trace materialization for one recording (lines 278–282 with
221–232): resolve the DA channel (raising — `error` — when missing), read
that channel's raw data and scale by 1e-3 in voltage clamp, 1e-12 in
current clamp. -/
def commandTrace (stims : List (ℤ × String)) (deviceId : ℤ) (nb : NbMap)
    (rawDA : ℤ → List ℚ) : Except Unit (List ℚ) :=
  match da_chan stims deviceId with
  | none => Except.error ()
  | some ch =>
    Except.ok ((rawDA ch).map (fun v =>
      v * (if clamp_mode (nb "Clamp Mode") = "vc" then (1:ℚ)/10^3
           else (1:ℚ)/10^12)))

theorem da_chan_aux (d : ℤ) (stims : List (ℤ × String)) :
    ∀ init : Option ℤ,
      stims.foldl
          (fun found g => if g.2 = electrodeName d then some g.1 else found)
          init =
        match (stims.filter (fun g => g.2 = electrodeName d)).getLast? with
        | some g => some g.1
        | none => init := by
  induction stims with
  | nil => intro init; rfl
  | cons g rest ih =>
    intro init
    rw [List.foldl_cons, ih]
    by_cases hm : g.2 = electrodeName d
    · rw [if_pos hm, List.filter_cons_of_pos (by simpa using hm)]
      cases hfr : rest.filter (fun g => g.2 = electrodeName d) with
      | nil => rfl
      | cons a l =>
        rw [List.getLast?_cons_cons]
        cases hgl : (a :: l).getLast? with
        | none => simp [List.getLast?_eq_none_iff] at hgl
        | some x => rfl
    · rw [if_neg hm, List.filter_cons_of_neg (by simpa using hm)]

/-- Claim C9: the DA-channel lookup keeps scanning after a match, so with
several stimulus groups matching the device's electrode it returns the last
matching group's channel id (and `none` — an error — only with no match). -/
theorem c9_last_match (stims : List (ℤ × String)) (deviceId : ℤ) :
    da_chan stims deviceId =
      ((stims.filter (fun g => g.2 = electrodeName deviceId)).getLast?).map
        Prod.fst := by
  rw [da_chan, da_chan_aux]
  cases (stims.filter (fun g => g.2 = electrodeName deviceId)).getLast? <;> rfl

/-- Claim C7: the DA-channel lookup fails (the source raises) exactly when
no stimulus group's electrode name matches the device id; the failure is
confined to that recording's command trace — any recording whose own device
has a match still materializes its command data, whatever other devices
lack. -/
theorem c7_da_not_found (stims : List (ℤ × String)) (deviceId : ℤ)
    (nb : NbMap) (rawDA : ℤ → List ℚ) :
    (da_chan stims deviceId = none ↔
      ∀ g ∈ stims, g.2 ≠ electrodeName deviceId)
    ∧ (∀ d : ℤ, commandTrace stims d nb rawDA = Except.error () ↔
        da_chan stims d = none)
    ∧ (∀ d ch : ℤ, da_chan stims d = some ch →
        commandTrace stims d nb rawDA =
          Except.ok ((rawDA ch).map (fun v =>
            v * (if clamp_mode (nb "Clamp Mode") = "vc" then (1:ℚ)/10^3
                 else (1:ℚ)/10^12)))) := by
  refine ⟨?_, ?_, ?_⟩
  · rw [show da_chan stims deviceId =
          ((stims.filter (fun g => g.2 = electrodeName deviceId)).getLast?).map
            Prod.fst from by
        rw [da_chan, da_chan_aux]
        cases (stims.filter
            (fun g => g.2 = electrodeName deviceId)).getLast? <;> rfl]
    constructor
    · intro h g hg hmatch
      have : stims.filter (fun g => g.2 = electrodeName deviceId) ≠ [] := by
        intro hnil
        have := List.filter_eq_nil_iff.mp hnil g hg
        simp [hmatch] at this
      rcases List.exists_cons_of_ne_nil this with ⟨a, l, hl⟩
      rw [hl] at h
      cases hgl : (a :: l).getLast? with
      | none => simp [List.getLast?_eq_none_iff] at hgl
      | some x => rw [hgl] at h; simp at h
    · intro h
      have hnil : stims.filter (fun g => g.2 = electrodeName deviceId) = [] :=
        List.filter_eq_nil_iff.mpr (fun a ha => by simp [h a ha])
      rw [hnil]
      rfl
  · intro d
    cases hd : da_chan stims d with
    | none => simp [commandTrace, hd]
    | some ch => simp [commandTrace, hd]
  · intro d ch hd
    simp [commandTrace, hd]

/-- The raw inputs the `MiesNwb` read paths take from the open HDF handle:
for `notebook`, the key list, the EntrySourceType / "TP Peak Resistance" /
"TP Pulse Duration" field indices and the numericalValues records; for
`contents`, the `acquisition/timeseries` dataset names; for the command
trace, the `stimulus/presentation` groups (DA channel id, electrode name)
and their raw data arrays. -/
structure MiesNwbFile where
  nbKeys : List String
  est : Option ℕ
  tpPeak : ℕ
  tpDur : ℕ
  nbRecords : List Entry
  tsKeys : List String
  stims : List (ℤ × String)
  daData : ℤ → List ℚ

/-- The mutable state of a `MiesNwb` object: `hdf` (`None` once closed) and
the `_notebook` / `_sweeps` memo cells. -/
structure MiesNwbState where
  hdf : Option MiesNwbFile
  notebookCache : Option (List (ℤ × Entry))
  sweepsCache : Option (List ℤ)

/-- `MiesNwb.close` (lines 117–119): close and clear the handle; the memo
cells are left untouched. -/
def closeNwb (s : MiesNwbState) : MiesNwbState := { s with hdf := none }

/-- `MiesNwb.notebook` at the lifecycle level (lines 32–100): answer from
the `_notebook` cache when it is filled; otherwise read from `self.hdf` —
subscripting the `None` left by `close` raises (`error`; the source has no
explicit closed-handle precondition check) — decode, and fill the cache. -/
def notebookRead (s : MiesNwbState) :
    Except Unit (List (ℤ × Entry) × MiesNwbState) :=
  match s.notebookCache with
  | some nb => Except.ok (nb, s)
  | none =>
    match s.hdf with
    | none => Except.error ()
    | some f =>
      let nb := decodeNotebook f.nbKeys f.est f.tpPeak f.tpDur f.nbRecords
      Except.ok (nb, { s with notebookCache := some nb })

/-- The sweep-id extraction of `MiesNwb.contents` (lines 107–111): take
`k.split('_')[1]` of every dataset name, set-deduplicate, sort (as strings;
the ids are zero-padded, so string order is numeric order), and apply
`int(...)` to each surviving id.  (A malformed dataset name would raise in
the source's tuple unpacking or `int()`; such names are not modelled and
default to the empty component / id 0.) -/
def sweepIdsOfKeys (tsKeys : List String) : List ℤ :=
  (((tsKeys.map (fun k => (k.splitOn "_").getD 1 "")).dedup).mergeSort
      (fun a b => a ≤ b)).map (fun b => (b.toInt?).getD 0)

/-- `MiesNwb.contents` at the lifecycle level (lines 102–112): answer from
the `_sweeps` memo when it is filled; otherwise enumerate
`self.hdf['acquisition/timeseries']` — again a subscript of the `None`
handle raises after `close`, with no precondition check — and build the
sorted, deduplicated sweep list (sweeps represented by their ids). -/
def contentsRead (s : MiesNwbState) : Except Unit (List ℤ × MiesNwbState) :=
  match s.sweepsCache with
  | some sw => Except.ok (sw, s)
  | none =>
    match s.hdf with
    | none => Except.error ()
    | some f =>
      let sw := sweepIdsOfKeys f.tsKeys
      Except.ok (sw, { s with sweepsCache := some sw })

/-- What a constructed `MiesRecording`/`MiesTrace` pair retains: the decoded
per-channel notebook mapping, the device id, the primary dataset behind the
recording's retained `_hdf_group`, the trace's channel id and its `_data`
memo cell. -/
structure MiesTraceState where
  nb : NbMap
  deviceId : ℤ
  primaryRaw : List ℚ
  chan : String
  dataCache : Option (List ℚ)

/-- `MiesTrace.data` at the lifecycle level (lines 221–232 with 272–282):
answer from the `_data` memo when it is filled.  Otherwise the primary
channel reads the dataset of the retained `_hdf_group` — h5py invalidates
retained group objects when their file is closed, so this read raises after
`close` — and the command channel resolves the DA channel and its dataset
through `self._nwb.hdf` (both `da_chan` and `command_hdf` subscript it, so
the `None` left by `close` raises; a missing DA channel raises its own
not-found error).  No path makes an explicit closed-resource precondition
check.  Any other channel id leaves the memo empty and yields no data
without touching the file. -/
def traceRead (s : MiesNwbState) (tr : MiesTraceState) :
    Except Unit (Option (List ℚ) × MiesTraceState) :=
  match tr.dataCache with
  | some d => Except.ok (some d, tr)
  | none =>
    if tr.chan = "primary" then
      match s.hdf with
      | none => Except.error ()
      | some _ =>
        let d := tr.primaryRaw.map (fun v =>
          v * (if clamp_mode (tr.nb "Clamp Mode") = "vc" then (1:ℚ)/10^12
               else (1:ℚ)/10^3))
        Except.ok (some d, { tr with dataCache := some d })
    else if tr.chan = "command" then
      match s.hdf with
      | none => Except.error ()
      | some f =>
        match da_chan f.stims tr.deviceId with
        | none => Except.error ()
        | some ch =>
          let d := (f.daData ch).map (fun v =>
            v * (if clamp_mode (tr.nb "Clamp Mode") = "vc" then (1:ℚ)/10^3
                 else (1:ℚ)/10^12))
          Except.ok (some d, { tr with dataCache := some d })
    else Except.ok (none, tr)

def exceptFails {α : Type} : Except Unit α → Bool
  | Except.error _ => true
  | Except.ok _ => false

def wFile : MiesNwbFile :=
  ⟨["SweepNum"], none, 0, 0, [], ["data_00001_AD0"], [], fun _ => []⟩

def wState : MiesNwbState := ⟨some wFile, some [], some [1]⟩

def wTrace : MiesTraceState := ⟨fun _ => none, 0, [], "primary", some []⟩

/-- Counterexample to claim C8 as stated: on an experiment whose notebook,
sweep list and trace data were computed (cached) before `close`, the
notebook read, the sweep enumeration and the trace materialization all
succeed after `close` instead of failing with a closed-resource error. -/
theorem c8_closed_read_counterexample :
    exceptFails (notebookRead (closeNwb wState)) = false ∧
    exceptFails (contentsRead (closeNwb wState)) = false ∧
    exceptFails (traceRead (closeNwb wState) wTrace) = false :=
  ⟨rfl, rfl, rfl⟩

/-- Claim C8 as amended: `close` clears the handle, and afterwards each read
operation — notebook decoding, sweep enumeration, trace materialization —
succeeds exactly when it is answered from a memo filled before `close`
(a trace channel other than primary/command yields no data without touching
the file), and fails otherwise: the notebook and sweep paths by
subscripting the cleared (`None`) handle, the trace paths through the
retained or re-fetched HDF objects of the closed file — never through an
explicit closed-resource precondition check. -/
theorem c8_closed_read_amended (s : MiesNwbState) (tr : MiesTraceState) :
    (closeNwb s).hdf = none
    ∧ notebookRead (closeNwb s) =
        (match s.notebookCache with
         | some nb => Except.ok (nb, closeNwb s)
         | none => Except.error ())
    ∧ contentsRead (closeNwb s) =
        (match s.sweepsCache with
         | some sw => Except.ok (sw, closeNwb s)
         | none => Except.error ())
    ∧ traceRead (closeNwb s) tr =
        (match tr.dataCache with
         | some d => Except.ok (some d, tr)
         | none =>
           if tr.chan = "primary" ∨ tr.chan = "command" then Except.error ()
           else Except.ok (none, tr)) := by
  refine ⟨rfl, ?_, ?_, ?_⟩
  · cases hc : s.notebookCache with
    | none => simp [notebookRead, closeNwb, hc]
    | some nb => simp [notebookRead, closeNwb, hc]
  · cases hc : s.sweepsCache with
    | none => simp [contentsRead, closeNwb, hc]
    | some sw => simp [contentsRead, closeNwb, hc]
  · cases hc : tr.dataCache with
    | some d => simp [traceRead, hc]
    | none =>
      by_cases hp : tr.chan = "primary"
      · simp [traceRead, closeNwb, hc, hp]
      · by_cases hcm : tr.chan = "command" <;>
          simp [traceRead, closeNwb, hc, hp, hcm]
